import Mathlib

/-!
Verification of the heimdall-sso authentication core.

The definitions below are a shallow embedding of the TypeScript source:
the access-control evaluator (OAuthService.checkAccessControl), the token
service (JWTService), the auth middleware chain (AuthMiddleware), the
role-update and sso-login route handlers, and the user directory
operations of PostgresAdapter modelled as pure functions over a list of
users.  Time is a natural number.  String lowercasing and splitting are
implemented by structural recursion over the character list so that all
definitions evaluate inside the kernel; they agree with the JavaScript
toLowerCase and split on the ASCII inputs the service handles.  The
external jsonwebtoken library is not part of the repository; its sign and
verify operations are modelled from the specification of the Token
Service.
-/

namespace Heimdall

/-- Splits a character list on the at sign, mirroring the JavaScript
expression email.split(the at sign). -/
def splitAtSignAux : List Char → List (List Char)
  | [] => [[]]
  | c :: cs =>
    match splitAtSignAux cs with
    | [] => [[]]
    | g :: gs => if c == '@' then [] :: g :: gs else (c :: g) :: gs

/-- String wrapper for splitAtSignAux. -/
def splitAtSign (s : String) : List String :=
  (splitAtSignAux s.data).map String.mk

/-- Lowercases a string character by character, mirroring the JavaScript
toLowerCase on ASCII input. -/
def lowerString (s : String) : String :=
  String.mk (s.data.map Char.toLower)

/-- Access-control configuration: an allow-list of domains and an
allow-list of specific emails, both defaulting to empty. -/
structure AccessControlConfig where
  allowedDomains : List String := []
  allowedEmails : List String := []
  deriving Repr, DecidableEq

/-- Embedding of OAuthService.checkAccessControl.  The input email is
lowercased; the domain is the element at index 1 of the split of the
lowercased email on the at sign; the configured list entries are compared
verbatim. -/
def checkAccessControl (cfg : AccessControlConfig) (email : String) : Bool :=
  if cfg.allowedDomains.length == 0 && cfg.allowedEmails.length == 0 then
    true
  else
    let emailLower := lowerString email
    let domain := (splitAtSign emailLower)[1]?
    if cfg.allowedEmails.length > 0 && cfg.allowedEmails.contains emailLower then
      true
    else if cfg.allowedDomains.length > 0 &&
        (match domain with
         | some d => cfg.allowedDomains.contains d
         | none => false) then
      true
    else
      false

/-- Joins a list of strings with the at sign between them. -/
def joinAtSign : List String → String
  | [] => ""
  | [s] => s
  | s :: rest => s ++ "@" ++ joinAtSign rest

/-- Substring of a string after the first at sign, or none when the string
contains no at sign.  Used only to state claim C1 as written. -/
def afterFirstAt (s : String) : Option String :=
  match splitAtSign s with
  | [] => none
  | [_] => none
  | _ :: rest => some (joinAtSign rest)

/-- The access-control predicate exactly as claim C1 words it: both
comparisons case-insensitive in the input and in the configured list
entries, and the domain is the substring after the first at sign.  This
definition follows the claim text, not the source, and is compared with
checkAccessControl. -/
def claimIsAllowed (cfg : AccessControlConfig) (email : String) : Bool :=
  if cfg.allowedDomains.isEmpty && cfg.allowedEmails.isEmpty then
    true
  else
    let emailLower := lowerString email
    (cfg.allowedEmails.map lowerString).contains emailLower ||
    (match afterFirstAt emailLower with
     | some d => (cfg.allowedDomains.map lowerString).contains d
     | none => false)

/-- Identity record persisted by the user directory, from the users table
and the User interface: role is one of the strings user, admin,
super_admin; isActive defaults to true. -/
structure User where
  id : Nat
  email : String
  name : String
  role : String
  provider : String := "microsoft"
  isActive : Bool := true
  lastLogin : Option Nat := none
  deriving Repr, DecidableEq

/-- Claims payload carried by a session token, from the JWTPayload
interface. -/
structure JWTPayload where
  userId : Nat
  email : String
  role : String
  deriving Repr, DecidableEq

/-- Modelled from the spec: a jsonwebtoken token string is either a well
formed signed token carrying a claims payload, an expiry timestamp and a
signature, or an arbitrary malformed string.  The serialized string form
lives in the external library and is not modelled. -/
inductive Token where
  | signed (payload : JWTPayload) (exp : Nat) (sig : Nat)
  | malformed (raw : String)
  deriving Repr, DecidableEq

/-- Simple executable hash of a string, used by the signature model. -/
def macNat (s : String) : Nat :=
  s.data.foldl (fun h c => h * 31 + c.toNat) 7

/-- Modelled from the spec: the HMAC signature of the claims and expiry
under the shared secret, as an executable stand-in. -/
def tokenSignature (secret : String) (p : JWTPayload) (exp : Nat) : Nat :=
  macNat secret * 1000003 + macNat p.email * 1009 + macNat p.role * 101 +
    p.userId * 31 + exp

/-- Error kinds raised by the modelled jsonwebtoken verify. -/
inductive JwtError where
  | expired
  | invalid
  deriving Repr, DecidableEq

/-- Modelled from the spec: jwt.sign encodes the payload with expiry equal
to the issue time plus the configured duration and signs it with the
shared secret. -/
def jwtSign (secret : String) (p : JWTPayload) (iat expiresIn : Nat) : Token :=
  .signed p (iat + expiresIn) (tokenSignature secret p (iat + expiresIn))

/-- Modelled from the spec: jwt.verify fails with the expired error when
the current time is at or past expiry, and with the invalid error for a
signature mismatch or a malformed token; per spec section 8 property 2 the
expiry check dominates. -/
def jwtVerify (secret : String) (now : Nat) : Token → Except JwtError JWTPayload
  | .malformed _ => .error .invalid
  | .signed p exp sig =>
    if exp ≤ now then .error .expired
    else if sig = tokenSignature secret p exp then .ok p
    else .error .invalid

/-- Embedding of JWTService.verifyToken: maps the expired library error to
the message Token has expired and the invalid library error to the message
Invalid token. -/
def verifyToken (secret : String) (now : Nat) (token : Token) : Except String JWTPayload :=
  match jwtVerify secret now token with
  | .ok p => .ok p
  | .error .expired => .error "Token has expired"
  | .error .invalid => .error "Invalid token"

/-- Embedding of JWTService.generateToken: signs the payload built from
the user id, email and role. -/
def generateToken (secret : String) (expiresIn : Nat) (user : User) (now : Nat) : Token :=
  jwtSign secret ⟨user.id, user.email, user.role⟩ now expiresIn

/-- Default token lifetime of the JWTService constructor, seven days in
seconds. -/
def defaultExpiresIn : Nat := 604800

/-- Expiry timestamp recorded in a token, none for a malformed token. -/
def tokenExp : Token → Option Nat
  | .signed _ exp _ => some exp
  | .malformed _ => none

/-- Boolean success test for an Except value. -/
def exceptOk : Except String JWTPayload → Bool
  | .ok _ => true
  | .error _ => false

/-- Embedding of PostgresAdapter.getUserById over the list model of the
users table. -/
def getUserById (db : List User) (id : Nat) : Option User :=
  db.find? (fun u => u.id == id)

/-- Embedding of PostgresAdapter.getUserByEmail. -/
def getUserByEmail (db : List User) (email : String) : Option User :=
  db.find? (fun u => u.email == email)

/-- Embedding of PostgresAdapter.updateUserRole: sets the role of every
row with the given id and reports whether any row was affected. -/
def updateUserRole (db : List User) (userId : Nat) (role : String) : Bool × List User :=
  (db.any (fun u => u.id == userId),
   db.map (fun u => if u.id == userId then { u with role := role } else u))

/-- Fresh id for an inserted row, modelling the SERIAL primary key. -/
def nextId (db : List User) : Nat :=
  db.foldl (fun m u => max m u.id) 0 + 1

/-- Embedding of PostgresAdapter.createOrUpdateUser: when a row with the
email exists its name and last login are updated, otherwise a new row is
inserted whose role is super admin exactly when the table was empty. -/
def createOrUpdateUser (db : List User) (email name provider : String) (now : Nat) : User × List User :=
  match getUserByEmail db email with
  | some u =>
    ({ u with name := name, lastLogin := some now },
     db.map (fun v => if v.email == email then { v with name := name, lastLogin := some now } else v))
  | none =>
    let role := if db.length == 0 then "super_admin" else "user"
    let newUser : User :=
      { id := nextId db, email := email, name := name, role := role,
        provider := provider, isActive := true, lastLogin := some now }
    (newUser, db ++ [newUser])

/-- Outcome of one middleware unit on one request: either a response is
sent and the pipeline halts, or the continuation runs with an optional
identity attached to the request. -/
inductive MWResult where
  | respond (status : Nat) (msg : String)
  | proceed (attached : Option User)
  deriving Repr, DecidableEq

/-- Authorization header shape: either a well formed bearer header
carrying a token, or any other header value.  The string surgery of
JWTService.extractTokenFromHeader, which accepts exactly the two-part form
starting with the word Bearer, is represented structurally because token
strings themselves are not modelled. -/
inductive AuthHeader where
  | bearer (t : Token)
  | other (raw : String)
  deriving Repr, DecidableEq

/-- Token sources of a request, in the priority order checked by
AuthMiddleware.extractToken. -/
structure Request where
  authorization : Option AuthHeader := none
  cookieAuthToken : Option Token := none
  queryToken : Option Token := none
  xAuthToken : Option Token := none
  deriving Repr, DecidableEq

/-- JavaScript truthiness of the serialized token string: a signed token
serializes to a nonempty string, a malformed token is falsy exactly when
its raw string is empty. -/
def Token.isTruthy : Token → Bool
  | .signed _ _ _ => true
  | .malformed raw => raw != ""

/-- Embedding of JWTService.extractTokenFromHeader over the structural
header: only a bearer header yields a token. -/
def extractTokenFromHeader : Option AuthHeader → Option Token
  | some (.bearer t) => some t
  | _ => none

/-- Filters out a falsy token, mirroring the truthiness guards in
AuthMiddleware.extractToken. -/
def truthyToken : Option Token → Option Token
  | some t => if t.isTruthy then some t else none
  | none => none

/-- Embedding of AuthMiddleware.extractToken: Authorization header, then
cookie, then query parameter, then custom header; first truthy match
wins. -/
def extractToken (req : Request) : Option Token :=
  match truthyToken (extractTokenFromHeader req.authorization) with
  | some t => some t
  | none =>
    match truthyToken req.cookieAuthToken with
    | some t => some t
    | none =>
      match truthyToken req.queryToken with
      | some t => some t
      | none => truthyToken req.xAuthToken

/-- Embedding of AuthMiddleware.authenticate: no token gives 401; an
expired or invalid token gives 401 with the matching message and any other
verification failure gives 500; a verified token whose user id is unknown
gives 401; a deactivated user gives 403; otherwise the user is attached
and the continuation runs. -/
def authenticate (secret : String) (now : Nat) (db : List User) (req : Request) : MWResult :=
  match extractToken req with
  | none => .respond 401 "No authentication token provided"
  | some token =>
    match verifyToken secret now token with
    | .error msg =>
      if msg == "Token has expired" then .respond 401 "Token has expired"
      else if msg == "Invalid token" then .respond 401 "Invalid token"
      else .respond 500 "Authentication failed"
    | .ok payload =>
      match getUserById db payload.userId with
      | none => .respond 401 "User not found"
      | some user =>
        if !user.isActive then .respond 403 "User account is deactivated"
        else .proceed (some user)

/-- Embedding of AuthMiddleware.optionalAuth: the continuation always
runs; the user is attached only when a token was extracted, verified, and
resolved to an active user, and every failure on that path is swallowed. -/
def optionalAuth (secret : String) (now : Nat) (db : List User) (req : Request) : MWResult :=
  .proceed
    (match extractToken req with
     | none => none
     | some token =>
       match verifyToken secret now token with
       | .error _ => none
       | .ok payload =>
         match getUserById db payload.userId with
         | none => none
         | some user => if user.isActive then some user else none)

/-- Reports whether a token was extracted from the request and verified
successfully. -/
def tokenVerifies (secret : String) (now : Nat) (req : Request) : Bool :=
  match extractToken req with
  | none => false
  | some t => exceptOk (verifyToken secret now t)

/-- Per-client rate limiter entry: request count and reset deadline. -/
structure RLEntry where
  count : Nat
  resetTime : Nat
  deriving Repr, DecidableEq

/-- Outcome of the rate limiter on one request: the continuation runs, or
a 429 response carrying retryAfter seconds is sent. -/
inductive RLResult where
  | next
  | tooMany (retryAfter : Nat)
  deriving Repr, DecidableEq

/-- Embedding of the closure returned by AuthMiddleware.rateLimit for one
client: a missing entry or an arrival strictly past the reset deadline
starts a fresh window; at or above maxRequests within the window the
request is answered 429 with retryAfter the ceiling of the remaining
milliseconds over 1000; otherwise the counter increments. -/
def rateLimitStep (maxRequests windowMs now : Nat) (st : Option RLEntry) : RLResult × Option RLEntry :=
  match st with
  | none => (.next, some ⟨1, now + windowMs⟩)
  | some e =>
    if e.resetTime < now then
      (.next, some ⟨1, now + windowMs⟩)
    else if maxRequests ≤ e.count then
      (.tooMany ((e.resetTime - now + 999) / 1000), some e)
    else
      (.next, some ⟨e.count + 1, e.resetTime⟩)

/-- Runs the rate limiter over a sequence of arrival times of one client,
returning the per-request outcomes and the final entry. -/
def rateLimitRun (maxRequests windowMs : Nat) : List Nat → Option RLEntry → List RLResult × Option RLEntry
  | [], st => ([], st)
  | t :: ts, st =>
    let step := rateLimitStep maxRequests windowMs t st
    let rest := rateLimitRun maxRequests windowMs ts step.2
    (step.1 :: rest.1, rest.2)

/-- Result of the role-update route handler. -/
inductive RoleUpdateResult where
  | ok (user : Option User)
  | clientError (status : Nat) (error : String)
  deriving Repr, DecidableEq

/-- Role values accepted by the role-update route handler. -/
def validRoles : List String := ["user", "admin", "super_admin"]

/-- Embedding of the PUT users role route handler: rejects unknown role
values with 400; rejects with 400 a change that would set the sole
remaining super admin to another role; otherwise updates the role,
answering 404 when no row has the id. -/
def updateUserRoleHandler (db : List User) (userId : Nat) (role : String) : RoleUpdateResult × List User :=
  if !(validRoles.contains role) then
    (.clientError 400 "Invalid role", db)
  else if role != "super_admin" &&
      (let superAdmins := db.filter (fun u => u.role == "super_admin")
       superAdmins.length == 1 &&
         (match superAdmins.head? with
          | some u => u.id == userId
          | none => false)) then
    (.clientError 400 "Cannot remove the last super admin", db)
  else
    let res := updateUserRole db userId role
    if res.1 then (.ok (getUserById res.2 userId), res.2)
    else (.clientError 404 "User not found", db)

/-- Body of an sso-login request; email and name are required fields. -/
structure SsoLoginBody where
  email : Option String := none
  name : Option String := none
  provider : String := "microsoft"
  avatar : Option String := none
  deriving Repr, DecidableEq

/-- Result of the sso-login route handler: a token and the upserted user
on success, a 400 for missing fields, or a 403 carrying the error label
and the explanatory message on access denial. -/
inductive SsoLoginResult where
  | success (token : Token) (user : User)
  | badRequest (error : String)
  | accessDenied (error : String) (message : String)
  deriving Repr, DecidableEq

/-- JavaScript truthiness of an optional string field. -/
def strTruthy : Option String → Bool
  | some s => s != ""
  | none => false

/-- Embedding of the POST sso-login route handler: missing email or name
gives 400; an email denied by checkAccessControl gives 403 with the
explanatory message and no directory change; otherwise the user is
upserted and a token is generated for it. -/
def ssoLoginHandler (cfg : AccessControlConfig) (secret : String) (expiresIn : Nat)
    (db : List User) (now : Nat) (body : SsoLoginBody) : SsoLoginResult × List User :=
  if !(strTruthy body.email) || !(strTruthy body.name) then
    (.badRequest "Email and name are required", db)
  else
    let email := body.email.getD ""
    let name := body.name.getD ""
    if !(checkAccessControl cfg email) then
      (.accessDenied "Access denied" "Your email is not authorized to access this application", db)
    else
      let res := createOrUpdateUser db email name body.provider now
      (.success (generateToken secret expiresIn res.1 now) res.1, res.2)



/-- Claim C1, counterexample: with the configured domain list holding the
upper-case entry ACME.COM, the email x at acme.com is denied by
checkAccessControl although the claim, which also lowercases the
configured entries, says it is permitted. -/
theorem c1_counterexample :
    checkAccessControl ⟨["ACME.COM"], []⟩ "x@acme.com" = false ∧
    claimIsAllowed ⟨["ACME.COM"], []⟩ "x@acme.com" = true := by
  decide

/-- Claim C1 (amended): checkAccessControl permits an email exactly when
both allow-lists are empty, or the lowercased email appears verbatim in
the email list, or the second segment of the lowercased email split on the
at sign appears verbatim in the domain list; only the input is
lowercased. -/
theorem c1_checkAccessControl_spec (cfg : AccessControlConfig) (email : String) :
    checkAccessControl cfg email = true ↔
      (cfg.allowedDomains = [] ∧ cfg.allowedEmails = []) ∨
      lowerString email ∈ cfg.allowedEmails ∨
      (∃ d, (splitAtSign (lowerString email))[1]? = some d ∧ d ∈ cfg.allowedDomains) := by
  simp only [checkAccessControl]
  cases hdom : (splitAtSign (lowerString email))[1]? with
  | none =>
    simp [hdom, List.length_eq_zero, List.elem_iff, Nat.pos_iff_ne_zero]
    constructor
    · intro h
      rcases h with ⟨h1, h2⟩ | ⟨h1, h2⟩
      · exact Or.inl ⟨h1, h2⟩
      · exact Or.inr h2
    · rintro (⟨h1, h2⟩ | h)
      · exact Or.inl ⟨h1, h2⟩
      · by_cases he : cfg.allowedEmails = []
        · simp [he] at h
        · exact Or.inr ⟨he, h⟩
  | some d =>
    simp [hdom, List.length_eq_zero, List.elem_iff, Nat.pos_iff_ne_zero]
    constructor
    · intro h
      rcases h with ⟨h1, h2⟩ | ⟨h1, h2⟩ | ⟨h1, h2⟩
      · exact Or.inl ⟨h1, h2⟩
      · exact Or.inr (Or.inl h2)
      · exact Or.inr (Or.inr h2)
    · rintro (⟨h1, h2⟩ | h | h)
      · exact Or.inl ⟨h1, h2⟩
      · by_cases he : cfg.allowedEmails = []
        · simp [he] at h
        · exact Or.inr (Or.inl ⟨he, h⟩)
      · by_cases hdm : cfg.allowedDomains = []
        · simp [hdm] at h
        · by_cases he2 : cfg.allowedEmails ≠ [] ∧ lowerString email ∈ cfg.allowedEmails
          · exact Or.inr (Or.inl he2)
          · exact Or.inr (Or.inr ⟨hdm, h⟩)

/-- Witness for the amended claim C1 at a concrete permitted input. -/
theorem c1_checkAccessControl_spec_witness :
    checkAccessControl ⟨["acme.com"], []⟩ "X@ACME.COM" = true :=
  (c1_checkAccessControl_spec ⟨["acme.com"], []⟩ "X@ACME.COM").mpr
    (Or.inr (Or.inr ⟨"acme.com", by decide, by decide⟩))

/-- Claim C2: a well formed token whose expiry is at or before the current
time fails verification with the message Token has expired and with no
other error; a token that is not expired but carries a mismatched
signature, and a malformed token, fail with the message Invalid token. -/
theorem c2_verifyToken_errors (secret : String) (now : Nat) :
    (∀ p exp sig, exp ≤ now →
      verifyToken secret now (.signed p exp sig) = .error "Token has expired") ∧
    (∀ p exp sig, now < exp → sig ≠ tokenSignature secret p exp →
      verifyToken secret now (.signed p exp sig) = .error "Invalid token") ∧
    (∀ raw, verifyToken secret now (.malformed raw) = .error "Invalid token") := by
  refine ⟨?_, ?_, ?_⟩
  · intro p exp sig h
    simp [verifyToken, jwtVerify, h]
  · intro p exp sig h hsig
    simp [verifyToken, jwtVerify, Nat.not_le.mpr h, hsig]
  · intro raw
    rfl

/-- Witness for claim C2 at concrete expired, mismatched and malformed
tokens. -/
theorem c2_verifyToken_errors_witness :
    verifyToken "s" 10 (.signed ⟨1, "a@b.c", "user"⟩ 5 0) = .error "Token has expired" ∧
    verifyToken "s" 1 (.signed ⟨1, "a@b.c", "user"⟩ 5 0) = .error "Invalid token" ∧
    verifyToken "s" 1 (.malformed "zzz") = .error "Invalid token" :=
  ⟨(c2_verifyToken_errors "s" 10).1 ⟨1, "a@b.c", "user"⟩ 5 0 (by decide),
   (c2_verifyToken_errors "s" 1).2.1 ⟨1, "a@b.c", "user"⟩ 5 0 (by decide) (by decide),
   (c2_verifyToken_errors "s" 1).2.2 "zzz"⟩

/-- Claim C5: verifying a token generated for a user, with the same secret
and before its expiry, succeeds with claims carrying exactly the user id,
email and role, and the expiry recorded in the token is the issue time
plus the configured duration. -/
theorem c5_verify_generate (secret : String) (expiresIn : Nat) (user : User) (iat now : Nat)
    (h : now < iat + expiresIn) :
    verifyToken secret now (generateToken secret expiresIn user iat) =
      .ok ⟨user.id, user.email, user.role⟩ ∧
    tokenExp (generateToken secret expiresIn user iat) = some (iat + expiresIn) := by
  constructor
  · simp [verifyToken, jwtVerify, generateToken, jwtSign, Nat.not_le.mpr h]
  · rfl

/-- Witness for claim C5 with the default seven-day expiry. -/
theorem c5_verify_generate_witness :
    verifyToken "s" 100 (generateToken "s" defaultExpiresIn ⟨1, "a@b.c", "A", "user", "microsoft", true, none⟩ 0) =
      .ok ⟨1, "a@b.c", "user"⟩ ∧
    tokenExp (generateToken "s" defaultExpiresIn ⟨1, "a@b.c", "A", "user", "microsoft", true, none⟩ 0) =
      some (0 + defaultExpiresIn) :=
  c5_verify_generate "s" defaultExpiresIn ⟨1, "a@b.c", "A", "user", "microsoft", true, none⟩ 0 100 (by decide)

/-- Claim C7: when createOrUpdateUser inserts a new email, the created
identity gets role super admin exactly when the directory was previously
empty, and role user otherwise. -/
theorem c7_first_user_role (db : List User) (email name provider : String) (now : Nat)
    (h : getUserByEmail db email = none) :
    (createOrUpdateUser db email name provider now).1.role =
      (if db.length = 0 then "super_admin" else "user") := by
  simp [createOrUpdateUser, h]

/-- Witness for claim C7: the first identity ever created receives super
admin, the second receives user. -/
theorem c7_first_user_role_witness :
    (createOrUpdateUser [] "a@b.c" "A" "microsoft" 0).1.role = "super_admin" ∧
    (createOrUpdateUser [⟨1, "a@b.c", "A", "super_admin", "microsoft", true, some 0⟩]
      "d@e.f" "B" "microsoft" 1).1.role = "user" :=
  by
  constructor
  · simpa using c7_first_user_role [] "a@b.c" "A" "microsoft" 0 (by decide)
  · simpa using c7_first_user_role [⟨1, "a@b.c", "A", "super_admin", "microsoft", true, some 0⟩]
      "d@e.f" "B" "microsoft" 1 (by decide)

/-- Claim C4: an sso-login request with email and name present whose email
fails access control is answered 403 with the explanatory message, the
user directory is unchanged, and no token is issued since the access
denied result carries none. -/
theorem c4_sso_login_denied (cfg : AccessControlConfig) (secret : String) (expiresIn : Nat)
    (db : List User) (now : Nat) (body : SsoLoginBody)
    (hemail : strTruthy body.email = true) (hname : strTruthy body.name = true)
    (hdeny : checkAccessControl cfg (body.email.getD "") = false) :
    ssoLoginHandler cfg secret expiresIn db now body =
      (.accessDenied "Access denied" "Your email is not authorized to access this application", db) := by
  simp [ssoLoginHandler, hemail, hname, hdeny]

/-- Witness for claim C4 at a concrete denied email. -/
theorem c4_sso_login_denied_witness :
    ssoLoginHandler ⟨["acme.com"], []⟩ "s" 100
      [⟨1, "a@acme.com", "A", "super_admin", "microsoft", true, some 0⟩] 5
      { email := some "x@other.com", name := some "X" } =
      (.accessDenied "Access denied" "Your email is not authorized to access this application",
       [⟨1, "a@acme.com", "A", "super_admin", "microsoft", true, some 0⟩]) :=
  c4_sso_login_denied ⟨["acme.com"], []⟩ "s" 100
    [⟨1, "a@acme.com", "A", "super_admin", "microsoft", true, some 0⟩] 5
    { email := some "x@other.com", name := some "X" } (by decide) (by decide) (by decide)

/-- Claim C6: for a request whose token extracts and verifies, the
authenticate middleware answers 401 when the user id from the claims is
unknown, answers 403 when the user exists but is deactivated, and
otherwise attaches the user and runs the continuation. -/
theorem c6_authenticate (secret : String) (now : Nat) (db : List User) (req : Request)
    (token : Token) (payload : JWTPayload)
    (htok : extractToken req = some token)
    (hver : verifyToken secret now token = .ok payload) :
    (getUserById db payload.userId = none →
      authenticate secret now db req = .respond 401 "User not found") ∧
    (∀ u, getUserById db payload.userId = some u → u.isActive = false →
      authenticate secret now db req = .respond 403 "User account is deactivated") ∧
    (∀ u, getUserById db payload.userId = some u → u.isActive = true →
      authenticate secret now db req = .proceed (some u)) := by
  refine ⟨?_, ?_, ?_⟩
  · intro hu
    simp [authenticate, htok, hver, hu]
  · intro u hu hact
    simp [authenticate, htok, hver, hu, hact]
  · intro u hu hact
    simp [authenticate, htok, hver, hu, hact]

/-- Witness for claim C6: a valid bearer token for an active user attaches
that user and the pipeline continues. -/
theorem c6_authenticate_witness :
    authenticate "s" 50 [⟨1, "a@b.c", "A", "user", "microsoft", true, none⟩]
      { authorization := some (.bearer (.signed ⟨1, "a@b.c", "user"⟩ 100
          (tokenSignature "s" ⟨1, "a@b.c", "user"⟩ 100))) } =
      .proceed (some ⟨1, "a@b.c", "A", "user", "microsoft", true, none⟩) :=
  (c6_authenticate "s" 50 [⟨1, "a@b.c", "A", "user", "microsoft", true, none⟩]
      { authorization := some (.bearer (.signed ⟨1, "a@b.c", "user"⟩ 100
          (tokenSignature "s" ⟨1, "a@b.c", "user"⟩ 100))) }
      (.signed ⟨1, "a@b.c", "user"⟩ 100 (tokenSignature "s" ⟨1, "a@b.c", "user"⟩ 100))
      ⟨1, "a@b.c", "user"⟩ (by decide) (by rfl)).2.2
    ⟨1, "a@b.c", "A", "user", "microsoft", true, none⟩ (by decide) (by decide)

/-- Claim C9: optionalAuth always runs the continuation, and whenever no
token extracts or the extracted token fails verification it attaches no
identity. -/
theorem c9_optionalAuth (secret : String) (now : Nat) (db : List User) (req : Request) :
    (∃ a, optionalAuth secret now db req = .proceed a) ∧
    (tokenVerifies secret now req = false →
      optionalAuth secret now db req = .proceed none) := by
  constructor
  · exact ⟨_, rfl⟩
  · intro h
    unfold tokenVerifies at h
    unfold optionalAuth
    simp only [MWResult.proceed.injEq]
    split at h
    · rename_i he
      simp [he]
    · rename_i t he
      cases hv : verifyToken secret now t with
      | error e => simp [he, hv]
      | ok p =>
        rw [hv] at h
        simp [exceptOk] at h

/-- Witness for claim C9: a malformed cookie token attaches nothing and
the continuation still runs. -/
theorem c9_optionalAuth_witness :
    optionalAuth "s" 0 [] { cookieAuthToken := some (.malformed "zzz") } = .proceed none :=
  (c9_optionalAuth "s" 0 [] { cookieAuthToken := some (.malformed "zzz") }).2 (by decide)

/-- Claim C10: optionalAuth attaches a user only when a token extracted,
verified, and resolved to that user who is active in the directory; in
particular a valid token for a deactivated user attaches nothing while the
continuation still runs. -/
theorem c10_optionalAuth_attach (secret : String) (now : Nat) (db : List User) (req : Request) :
    (∀ u, optionalAuth secret now db req = .proceed (some u) →
      ∃ t payload, extractToken req = some t ∧
        verifyToken secret now t = .ok payload ∧
        getUserById db payload.userId = some u ∧ u.isActive = true) ∧
    (∀ t payload u, extractToken req = some t →
      verifyToken secret now t = .ok payload →
      getUserById db payload.userId = some u → u.isActive = false →
      optionalAuth secret now db req = .proceed none) := by
  constructor
  · intro u h
    unfold optionalAuth at h
    simp only [MWResult.proceed.injEq] at h
    split at h
    · simp at h
    · rename_i t he
      split at h
      · simp at h
      · rename_i p hv
        split at h
        · simp at h
        · rename_i v hu
          by_cases ha : v.isActive = true
          · rw [if_pos ha] at h
            obtain rfl : v = u := by simpa using h
            exact ⟨t, p, he, hv, hu, ha⟩
          · rw [if_neg ha] at h
            simp at h
  · intro t p u he hv hu ha
    unfold optionalAuth
    simp [he, hv, hu, ha]

/-- Witness for claim C10: a valid token for a deactivated user attaches
nothing. -/
theorem c10_optionalAuth_attach_witness :
    optionalAuth "s" 50 [⟨1, "a@b.c", "A", "user", "microsoft", false, none⟩]
      { authorization := some (.bearer (.signed ⟨1, "a@b.c", "user"⟩ 100
          (tokenSignature "s" ⟨1, "a@b.c", "user"⟩ 100))) } = .proceed none :=
  (c10_optionalAuth_attach "s" 50 [⟨1, "a@b.c", "A", "user", "microsoft", false, none⟩]
      { authorization := some (.bearer (.signed ⟨1, "a@b.c", "user"⟩ 100
          (tokenSignature "s" ⟨1, "a@b.c", "user"⟩ 100))) }).2
    (.signed ⟨1, "a@b.c", "user"⟩ 100 (tokenSignature "s" ⟨1, "a@b.c", "user"⟩ 100))
    ⟨1, "a@b.c", "user"⟩ ⟨1, "a@b.c", "A", "user", "microsoft", false, none⟩
    (by decide) (by rfl) (by decide) (by decide)

/-- Helper for claim C3: updating the role of the user with the given id
keeps at least one super admin, provided either the new role is super
admin, or the target is not the sole super admin. -/
theorem superadmin_survives (db : List User) (userId : Nat) (role : String)
    (huniq : (db.map User.id).Nodup)
    (h0 : ∃ u ∈ db, u.role = "super_admin")
    (hguard : role = "super_admin" ∨
      ∀ w, db.filter (fun v => v.role == "super_admin") = [w] → w.id ≠ userId) :
    ∃ u ∈ db.map (fun u => if u.id == userId then { u with role := role } else u),
      u.role = "super_admin" := by
  obtain ⟨u0, hu0, hrole0⟩ := h0
  rcases hguard with hr | hg
  · refine ⟨if u0.id == userId then { u0 with role := role } else u0,
      List.mem_map_of_mem _ hu0, ?_⟩
    by_cases hid : (u0.id == userId) = true
    · simp [hid, hr]
    · simp [hid, hrole0]
  · have hu0sa : u0 ∈ db.filter (fun v => v.role == "super_admin") :=
      List.mem_filter.mpr ⟨hu0, by simp [hrole0]⟩
    have hsub : ((db.filter (fun v => v.role == "super_admin")).map User.id).Sublist (db.map User.id) :=
      List.Sublist.map User.id (List.filter_sublist db)
    have hnodup : ((db.filter (fun v => v.role == "super_admin")).map User.id).Nodup :=
      List.Nodup.sublist hsub huniq
    cases hsal : db.filter (fun v => v.role == "super_admin") with
    | nil =>
      rw [hsal] at hu0sa
      simp at hu0sa
    | cons a tl =>
      cases tl with
      | nil =>
        rw [hsal] at hu0sa
        have hua : u0 = a := by simpa using hu0sa
        have hne : u0.id ≠ userId := by
          rw [hua]
          exact hg a hsal
        have hfu : (if u0.id == userId then { u0 with role := role } else u0) = u0 := by
          have hfalse : (u0.id == userId) = false := by
            simpa using hne
          simp [hfalse]
        exact ⟨u0, List.mem_map.mpr ⟨u0, hu0, hfu⟩, hrole0⟩
      | cons b tl2 =>
        have hamem : a ∈ db.filter (fun v => v.role == "super_admin") := by
          rw [hsal]
          exact List.mem_cons_self _ _
        have hbmem : b ∈ db.filter (fun v => v.role == "super_admin") := by
          rw [hsal]
          exact List.mem_cons_of_mem _ (List.mem_cons_self _ _)
        have hab : a.id ≠ b.id := by
          have hn := hnodup
          rw [hsal] at hn
          simp [List.nodup_cons] at hn
          exact hn.1.1
        by_cases haid : a.id = userId
        · have hbid : b.id ≠ userId := fun hb => hab (haid.trans hb.symm)
          obtain ⟨hbdb, hbrole⟩ := List.mem_filter.mp hbmem
          have hfb : (if b.id == userId then { b with role := role } else b) = b := by
            have hfalse : (b.id == userId) = false := by simpa using hbid
            simp [hfalse]
          exact ⟨b, List.mem_map.mpr ⟨b, hbdb, hfb⟩, by simpa using hbrole⟩
        · obtain ⟨hadb, harole⟩ := List.mem_filter.mp hamem
          have hfa : (if a.id == userId then { a with role := role } else a) = a := by
            have hfalse : (a.id == userId) = false := by simpa using haid
            simp [hfalse]
          exact ⟨a, List.mem_map.mpr ⟨a, hadb, hfa⟩, by simpa using harole⟩

/-- Claim C3: over a directory with unique ids, the role-update handler
preserves the existence of a super admin, and a request that would change
the role of the sole super admin to another value is rejected with a 400
error and leaves the directory unchanged. -/
theorem c3_role_update_invariant (db : List User) (userId : Nat) (role : String)
    (huniq : (db.map User.id).Nodup) :
    ((∃ u ∈ db, u.role = "super_admin") →
      ∃ u ∈ (updateUserRoleHandler db userId role).2, u.role = "super_admin") ∧
    (∀ u, db.filter (fun v => v.role == "super_admin") = [u] → u.id = userId →
      role ≠ "super_admin" →
      (∃ e, (updateUserRoleHandler db userId role).1 = .clientError 400 e) ∧
      (updateUserRoleHandler db userId role).2 = db) := by
  constructor
  · intro h0
    simp only [updateUserRoleHandler]
    split
    · simpa using h0
    · split
      · simpa using h0
      · rename_i hguard
        split
        · have hg2 : role = "super_admin" ∨
              ∀ w, db.filter (fun v => v.role == "super_admin") = [w] → w.id ≠ userId := by
            by_cases hr : role = "super_admin"
            · exact Or.inl hr
            · refine Or.inr fun w hw hwid => hguard ?_
              simp [hw, hwid, hr]
          have hsurv := superadmin_survives db userId role huniq h0 hg2
          simpa [updateUserRole] using hsurv
        · simpa using h0
  · intro u hfilter hid hrole
    simp only [updateUserRoleHandler]
    split
    · exact ⟨⟨"Invalid role", rfl⟩, rfl⟩
    · split
      · exact ⟨⟨"Cannot remove the last super admin", rfl⟩, rfl⟩
      · rename_i hguard
        exact absurd (by simp [hfilter, hid, hrole]) hguard

/-- Witness for claim C3: demoting the sole super admin of a two-user
directory is rejected and changes nothing. -/
theorem c3_role_update_invariant_witness :
    (∃ e, (updateUserRoleHandler
        [⟨1, "a@b.c", "A", "super_admin", "microsoft", true, none⟩,
         ⟨2, "d@e.f", "B", "user", "microsoft", true, none⟩] 1 "admin").1 =
      .clientError 400 e) ∧
    (updateUserRoleHandler
        [⟨1, "a@b.c", "A", "super_admin", "microsoft", true, none⟩,
         ⟨2, "d@e.f", "B", "user", "microsoft", true, none⟩] 1 "admin").2 =
      [⟨1, "a@b.c", "A", "super_admin", "microsoft", true, none⟩,
       ⟨2, "d@e.f", "B", "user", "microsoft", true, none⟩] :=
  (c3_role_update_invariant
      [⟨1, "a@b.c", "A", "super_admin", "microsoft", true, none⟩,
       ⟨2, "d@e.f", "B", "user", "microsoft", true, none⟩] 1 "admin" (by decide)).2
    ⟨1, "a@b.c", "A", "super_admin", "microsoft", true, none⟩
    (by decide) (by decide) (by decide)

/-- Helper for claim C8: the rate limiter emits one outcome per request. -/
theorem rateLimitRun_length (maxRequests windowMs : Nat) :
    ∀ (ts : List Nat) (st : Option RLEntry),
      (rateLimitRun maxRequests windowMs ts st).1.length = ts.length := by
  intro ts
  induction ts with
  | nil => intro st; rfl
  | cons t ts ih => intro st; simp [rateLimitRun, ih]

/-- Helper for claim C8: outcomes of a run whose arrivals all lie at or
before the reset deadline, starting from a positive count at most the
maximum: each request is admitted while the running count stays below the
maximum and otherwise answered with the remaining-seconds ceiling. -/
theorem rateLimitRun_inWindow (maxRequests windowMs reset : Nat) :
    ∀ (ts : List Nat) (c : Nat), 0 < c → c ≤ maxRequests → (∀ t ∈ ts, t ≤ reset) →
    ∀ i t, ts[i]? = some t →
      (rateLimitRun maxRequests windowMs ts (some ⟨c, reset⟩)).1[i]? =
        some (if c + i < maxRequests then RLResult.next
              else RLResult.tooMany ((reset - t + 999) / 1000)) := by
  intro ts
  induction ts with
  | nil =>
    intro c _ _ _ i t hit
    simp at hit
  | cons t0 ts ih =>
    intro c hc hcm hts i t hit
    have ht0 : t0 ≤ reset := hts t0 (List.mem_cons_self _ _)
    have hnotlt : ¬ reset < t0 := not_lt.mpr ht0
    by_cases hcap : maxRequests ≤ c
    · have hstep : rateLimitStep maxRequests windowMs t0 (some ⟨c, reset⟩) =
          (RLResult.tooMany ((reset - t0 + 999) / 1000), some ⟨c, reset⟩) := by
        simp [rateLimitStep, hnotlt, hcap]
      cases i with
      | zero =>
        have ht : t0 = t := by simpa using hit
        subst ht
        simp only [rateLimitRun, hstep, List.getElem?_cons_zero]
        rw [if_neg (by omega : ¬ c + 0 < maxRequests)]
      | succ j =>
        have hit2 : ts[j]? = some t := by simpa using hit
        have hrec := ih c hc hcm (fun x hx => hts x (List.mem_cons_of_mem _ hx)) j t hit2
        simp only [rateLimitRun, hstep, List.getElem?_cons_succ]
        rw [hrec]
        have h1 : ¬ c + j < maxRequests := by omega
        have h2 : ¬ c + (j + 1) < maxRequests := by omega
        rw [if_neg h1, if_neg h2]
    · have hlt : c < maxRequests := not_le.mp hcap
      have hstep : rateLimitStep maxRequests windowMs t0 (some ⟨c, reset⟩) =
          (RLResult.next, some ⟨c + 1, reset⟩) := by
        simp [rateLimitStep, hnotlt, hcap]
      cases i with
      | zero =>
        simp only [rateLimitRun, hstep, List.getElem?_cons_zero]
        rw [if_pos (by omega : c + 0 < maxRequests)]
      | succ j =>
        have hit2 : ts[j]? = some t := by simpa using hit
        have hrec := ih (c + 1) (by omega) (by omega)
          (fun x hx => hts x (List.mem_cons_of_mem _ hx)) j t hit2
        simp only [rateLimitRun, hstep, List.getElem?_cons_succ]
        rw [hrec]
        have heq : c + 1 + j = c + (j + 1) := by omega
        rw [heq]

/-- Claim C8, counterexample: with maxRequests one and a sixty-second
window, the second request of the same client arriving exactly at the
reset deadline is still within the window, yet its retryAfter is zero and
not positive as the claim demands. -/
theorem c8_counterexample :
    (rateLimitRun 1 60000 [0, 60000] none).1 = [RLResult.next, RLResult.tooMany 0] ∧
    60000 ≤ 0 + 60000 := by
  decide

/-- Claim C8 (amended): for a positive maxRequests and one client starting
from an empty counter, with every later arrival at or before the reset
deadline of the first window: each of the first maxRequests requests runs
the continuation; every further request in the window is answered 429 with
retryAfter the ceiling of the remaining milliseconds over 1000, which is
positive for arrivals strictly before the deadline and zero exactly at it;
and any request arriving strictly after a reset deadline starts a fresh
window and runs the continuation. -/
theorem c8_rateLimit (maxRequests windowMs t0 : Nat) (ts : List Nat)
    (hmax : 0 < maxRequests) (hts : ∀ t ∈ ts, t ≤ t0 + windowMs) :
    (∀ i r, i < maxRequests →
      (rateLimitRun maxRequests windowMs (t0 :: ts) none).1[i]? = some r →
      r = RLResult.next) ∧
    (∀ i t, ts[i]? = some t → maxRequests ≤ i + 1 →
      (rateLimitRun maxRequests windowMs (t0 :: ts) none).1[i + 1]? =
        some (RLResult.tooMany ((t0 + windowMs - t + 999) / 1000))) ∧
    (∀ i t, ts[i]? = some t → maxRequests ≤ i + 1 → t < t0 + windowMs →
      0 < (t0 + windowMs - t + 999) / 1000) ∧
    (∀ c reset t, reset < t →
      rateLimitStep maxRequests windowMs t (some ⟨c, reset⟩) =
        (RLResult.next, some ⟨1, t + windowMs⟩)) := by
  have hrun : rateLimitRun maxRequests windowMs (t0 :: ts) none =
      ((RLResult.next : RLResult) ::
        (rateLimitRun maxRequests windowMs ts (some ⟨1, t0 + windowMs⟩)).1,
       (rateLimitRun maxRequests windowMs ts (some ⟨1, t0 + windowMs⟩)).2) := by
    simp [rateLimitRun, rateLimitStep]
  refine ⟨?_, ?_, ?_, ?_⟩
  · intro i r hi hr
    rw [hrun] at hr
    cases i with
    | zero =>
      simp at hr
      exact hr.symm
    | succ j =>
      simp only [List.getElem?_cons_succ] at hr
      have hjlen : j < ts.length := by
        obtain ⟨hlt, _⟩ := List.getElem?_eq_some.mp hr
        rwa [rateLimitRun_length] at hlt
      have hw := rateLimitRun_inWindow maxRequests windowMs (t0 + windowMs) ts 1
        one_pos (by omega) hts j ts[j] (List.getElem?_eq_getElem hjlen)
      rw [hw] at hr
      have hjm : 1 + j < maxRequests := by omega
      rw [if_pos hjm] at hr
      exact (Option.some.inj hr).symm
  · intro i t hit hge
    rw [hrun]
    simp only [List.getElem?_cons_succ]
    have hw := rateLimitRun_inWindow maxRequests windowMs (t0 + windowMs) ts 1
      one_pos (by omega) hts i t hit
    rw [hw]
    have hni : ¬ 1 + i < maxRequests := by omega
    rw [if_neg hni]
  · intro i t hit hge hlt
    have h1 : (1 : Nat) ≤ (t0 + windowMs - t + 999) / 1000 := by
      rw [Nat.le_div_iff_mul_le (by norm_num)]
      omega
    omega
  · intro c reset t h
    simp [rateLimitStep, h]

/-- Witness for the amended claim C8: with a limit of two per minute, the
third request of the window is answered with retryAfter 58 seconds. -/
theorem c8_rateLimit_witness :
    (rateLimitRun 2 60000 [0, 1000, 2000] none).1[2]? =
      some (RLResult.tooMany ((0 + 60000 - 2000 + 999) / 1000)) :=
  (c8_rateLimit 2 60000 0 [1000, 2000] (by decide) (by decide)).2.1 1 2000
    (by decide) (by decide)

end Heimdall
